import Mathlib

/-!
Verification of the rtl_433 data collector (`src/main.rs`).

The development shallowly embeds the program: `chrono`-style timestamp
parsing and display, the two custom serde deserializers
(`deserialize_timestamp`, `deserialize_yes_no`), a `serde_json`-style
JSON value model and text parser, structural decoding into the
`RTL433Message` record, and the per-line reporting of
`process_json_line` / `parse_from_stdin`.  Wall-clock time
(`Utc::now()`) is passed in explicitly as a `now` parameter; logging to
stderr is modelled as a list of `LogEvent`s.
-/

namespace RTL433

/-- A UTC instant, as in `chrono::DateTime<Utc>`: seconds since the Unix
epoch plus a nanosecond part. -/
structure Ts where
  secs : Int
  nanos : Nat
deriving DecidableEq

/-- Proleptic-Gregorian leap-year test. -/
def isLeap (y : Int) : Bool :=
  (y.emod 4 == 0 && y.emod 100 != 0) || y.emod 400 == 0

/-- Number of days in a month of the proleptic Gregorian calendar. -/
def daysInMonth (y : Int) (m : Nat) : Nat :=
  if m = 2 then (if isLeap y then 29 else 28)
  else if m = 4 ∨ m = 6 ∨ m = 9 ∨ m = 11 then 30
  else 31

/-- Days since 1970-01-01 of a civil date (Hinnant's algorithm, as used
by `chrono`'s internal date arithmetic). -/
def daysFromCivil (y : Int) (m d : Nat) : Int :=
  let y' : Int := if m ≤ 2 then y - 1 else y
  let era : Int := y'.ediv 400
  let yoe : Int := y' - era * 400
  let mp : Int := if 2 < m then (m : Int) - 3 else (m : Int) + 9
  let doy : Int := (153 * mp + 2).ediv 5 + (d : Int) - 1
  let doe : Int := yoe * 365 + yoe.ediv 4 - yoe.ediv 100 + doy
  era * 146097 + doe - 719468

/-- Inverse of `daysFromCivil`: the civil date of a day number. -/
def civilFromDays (z0 : Int) : Int × Nat × Nat :=
  let z : Int := z0 + 719468
  let era : Int := z.ediv 146097
  let doe : Nat := (z.emod 146097).toNat
  let yoe : Nat := (doe - doe / 1460 + doe / 36524 - doe / 146096) / 365
  let doy : Nat := doe - (365 * yoe + yoe / 4 - yoe / 100)
  let mp : Nat := (5 * doy + 2) / 153
  let d : Nat := doy - (153 * mp + 2) / 5 + 1
  let m : Nat := if mp < 10 then mp + 3 else mp - 9
  let y : Int := (yoe : Int) + era * 400
  (if m ≤ 2 then y + 1 else y, m, d)

/-- Minimum supported year of `chrono` (`i32::MIN >> 13`). -/
def minYear : Int := -262144

/-- Maximum supported year of `chrono` (`i32::MAX >> 13`). -/
def maxYear : Int := 262143

/-- Timestamp of `chrono`'s `NaiveDateTime::MIN` (seconds). -/
def minTs : Int := daysFromCivil minYear 1 1 * 86400

/-- Timestamp of `chrono`'s `NaiveDateTime::MAX`, truncated to whole
seconds. -/
def maxTs : Int := daysFromCivil maxYear 12 31 * 86400 + 86399

/-- Model of `Utc.timestamp_opt(n, 0).single()`: `some` exactly when the epoch
second count is representable. -/
def timestamp_opt (n : Int) : Option Ts :=
  if minTs ≤ n ∧ n ≤ maxTs then some ⟨n, 0⟩ else none

/-! ### Scanning primitives (model of `chrono::format::scan`) -/

/-- Decimal value of an ASCII digit. -/
def digitVal (c : Char) : Nat := c.toNat - 48

/-- Consume up to `max` leading ASCII digits, returning the value read,
the number of digits consumed and the rest. -/
def scanDigits : Nat → Nat → Nat → List Char → Nat × Nat × List Char
  | 0, acc, cnt, cs => (acc, cnt, cs)
  | _ + 1, acc, cnt, [] => (acc, cnt, [])
  | maxd + 1, acc, cnt, c :: cs =>
    if c.isDigit then scanDigits maxd (acc * 10 + digitVal c) (cnt + 1) cs
    else (acc, cnt, c :: cs)

/-- Model of `scan::number(s, min, max)`: greedy digit run of length between
`mind` and `maxd`. -/
def scanNumber (mind maxd : Nat) (cs : List Char) : Option (Nat × List Char) :=
  let (v, cnt, rest) := scanDigits maxd 0 0 cs
  if mind ≤ cnt then some (v, rest) else none

/-- Exactly `n` ASCII digits. -/
def scanExactDigits (n : Nat) (cs : List Char) : Option (Nat × List Char) :=
  let (v, cnt, rest) := scanDigits n 0 0 cs
  if cnt = n then some (v, rest) else none

/-- Parse a `%Y` year: an optional sign followed by digits; without a
sign at most four digits are consumed. -/
def scanYear (cs : List Char) : Option (Int × List Char) :=
  match cs with
  | '-' :: r => (scanNumber 1 r.length r).map (fun p => (-(p.1 : Int), p.2))
  | '+' :: r => (scanNumber 1 r.length r).map (fun p => ((p.1 : Int), p.2))
  | r => (scanNumber 1 4 r).map (fun p => ((p.1 : Int), p.2))

/-- Match one literal character. -/
def litChar (c : Char) (cs : List Char) : Option (List Char) :=
  match cs with
  | c' :: r => if c' = c then some r else none
  | [] => none

/-- Whitespace as consumed by a format-string space item. -/
def isWsChar (c : Char) : Bool :=
  c == ' ' || c == '\t' || c == '\n' || c == '\r'

/-- A space item in a format string consumes zero or more whitespace
characters. -/
def spaceItem (cs : List Char) : List Char := cs.dropWhile isWsChar

/-- Fraction item `%.f`: empty, or a dot followed by one or more digits, of which the
first nine are significant (scaled to nanoseconds). -/
def scanDotFrac (cs : List Char) : Option (Nat × List Char) :=
  match cs with
  | '.' :: r =>
    let ds := r.takeWhile Char.isDigit
    if ds.isEmpty then none
    else
      let sig := ds.take 9
      let v := sig.foldl (fun a c => a * 10 + digitVal c) 0
      some (v * 10 ^ (9 - sig.length), r.dropWhile Char.isDigit)
  | _ => none

/-- Optional `%.f` fraction (absent fraction parses as zero). -/
def scanOptFrac (cs : List Char) : Option (Nat × List Char) :=
  match cs with
  | '.' :: _ => scanDotFrac cs
  | _ => some (0, cs)

/-- Validate parsed date-time components and build the corresponding
UTC timestamp (second 60 is a leap second, folded into nanoseconds as
`chrono` does). -/
def mkNaiveTs (y : Int) (mo d h mi s nano : Nat) : Option Ts :=
  if minYear ≤ y ∧ y ≤ maxYear ∧ 1 ≤ mo ∧ mo ≤ 12 ∧ 1 ≤ d ∧ d ≤ daysInMonth y mo
      ∧ h ≤ 23 ∧ mi ≤ 59 ∧ s ≤ 60 then
    let s' : Nat := if s = 60 then 59 else s
    let extra : Nat := if s = 60 then 1000000000 else 0
    some ⟨daysFromCivil y mo d * 86400 + ((h * 3600 + mi * 60 + s' : Nat) : Int), nano + extra⟩
  else none

/-- Parse the shared `"%Y-%m-%d %H:%M:%S"` portion of the two naive
formats, returning the components and the unconsumed rest. -/
def parseYmdHms (cs : List Char) : Option ((Int × Nat × Nat × Nat × Nat × Nat) × List Char) := do
  let (y, r1) ← scanYear cs
  let r2 ← litChar '-' r1
  let (mo, r3) ← scanNumber 1 2 r2
  let r4 ← litChar '-' r3
  let (d, r5) ← scanNumber 1 2 r4
  let r6 := spaceItem r5
  let (h, r7) ← scanNumber 1 2 r6
  let r8 ← litChar ':' r7
  let (mi, r9) ← scanNumber 1 2 r8
  let r10 ← litChar ':' r9
  let (s, r11) ← scanNumber 1 2 r10
  pure ((y, mo, d, h, mi, s), r11)

/-- Model of `NaiveDateTime::parse_from_str(s, "%Y-%m-%d %H:%M:%S")`, followed by
`Utc.from_utc_datetime`. -/
def parseFmt1 (s : String) : Option Ts :=
  match parseYmdHms s.toList with
  | some ((y, mo, d, h, mi, sec), rest) =>
    if rest.isEmpty then mkNaiveTs y mo d h mi sec 0 else none
  | none => none

/-- Model of `NaiveDateTime::parse_from_str(s, "%Y-%m-%d %H:%M:%S%.f")`, followed
by `Utc.from_utc_datetime`. -/
def parseFmt2 (s : String) : Option Ts :=
  match parseYmdHms s.toList with
  | some ((y, mo, d, h, mi, sec), rest) =>
    match scanOptFrac rest with
    | some (nano, rest') =>
      if rest'.isEmpty then mkNaiveTs y mo d h mi sec nano else none
    | none => none
  | none => none

/-- Parse an RFC 3339 offset: `Z`/`z` or `±HH:MM`, returning the offset
in seconds east of UTC. -/
def scanRfcOffset (cs : List Char) : Option (Int × List Char) :=
  match cs with
  | 'Z' :: r => some (0, r)
  | 'z' :: r => some (0, r)
  | '+' :: r => do
    let (hh, r1) ← scanExactDigits 2 r
    let r2 ← litChar ':' r1
    let (mm, r3) ← scanExactDigits 2 r2
    let total : Int := (hh : Int) * 3600 + (mm : Int) * 60
    if total < 86400 then pure (total, r3) else none
  | '-' :: r => do
    let (hh, r1) ← scanExactDigits 2 r
    let r2 ← litChar ':' r1
    let (mm, r3) ← scanExactDigits 2 r2
    let total : Int := (hh : Int) * 3600 + (mm : Int) * 60
    if total < 86400 then pure (-total, r3) else none
  | _ => none

/-- The date/time separator accepted by `chrono`'s RFC 3339 parser. -/
def isRfcSep (c : Char) : Bool := c == 'T' || c == 't' || c == ' '

/-- Model of `DateTime::parse_from_rfc3339`, with the result converted to UTC
(`with_timezone(&Utc)`). -/
def parseRfc3339 (s : String) : Option Ts := do
  let cs := s.toList
  let (y, r1) ← scanExactDigits 4 cs
  let r2 ← litChar '-' r1
  let (mo, r3) ← scanExactDigits 2 r2
  let r4 ← litChar '-' r3
  let (d, r5) ← scanExactDigits 2 r4
  let r6 ← match r5 with
    | c :: r => if isRfcSep c then some r else none
    | [] => none
  let (h, r7) ← scanExactDigits 2 r6
  let r8 ← litChar ':' r7
  let (mi, r9) ← scanExactDigits 2 r8
  let r10 ← litChar ':' r9
  let (sec, r11) ← scanExactDigits 2 r10
  let (nano, r12) ← scanOptFrac r11
  let (off, r13) ← scanRfcOffset r12
  if r13.isEmpty then
    (mkNaiveTs (y : Int) mo d h mi sec nano).map (fun t => ⟨t.secs - off, t.nanos⟩)
  else none

/-- Rust's `str::parse::<i64>`: optional sign, one or more digits, the
whole string, and the value within the `i64` range. -/
def parseI64Str (s : String) : Option Int :=
  let cs := s.toList
  let (sgn, ds) : Int × List Char :=
    match cs with
    | '-' :: r => (-1, r)
    | '+' :: r => (1, r)
    | r => (1, r)
  if ds.isEmpty || !ds.all Char.isDigit then none
  else
    let v : Int := sgn * (ds.foldl (fun a c => a * 10 + digitVal c) 0 : Nat)
    if -(2 ^ 63) ≤ v ∧ v ≤ 2 ^ 63 - 1 then some v else none

/-! ### The two custom deserializers -/

/-- Token arm of the `match` in `deserialize_yes_no` mapping to `true`. -/
def yesTokens : List String := ["Yes", "yes", "YES", "true", "TRUE", "True", "1"]

/-- Token arm of the `match` in `deserialize_yes_no` mapping to `false`. -/
def noTokens : List String := ["No", "no", "NO", "false", "FALSE", "False", "0"]

/-- Function `deserialize_yes_no` (`main.rs:8-21`), after the value has been
decoded as `Option<String>`: the token match on the string. -/
def deserialize_yes_no (s? : Option String) : Option Bool :=
  match s? with
  | none => none
  | some s =>
    if yesTokens.contains s then some true
    else if noTokens.contains s then some false
    else none

/-- Function `deserialize_timestamp` (`main.rs:24-60`), after the value has been
decoded as `Option<String>`.  `now` stands for `Utc::now()`; the second
component is the string named in the
`eprintln!("Unknown timestamp format: ...")` warning, when emitted. -/
def deserialize_timestamp (now : Ts) (s? : Option String) : Ts × Option String :=
  match s? with
  | none => (now, none)
  | some time_str =>
    match parseFmt1 time_str with
    | some t => (t, none)
    | none =>
      match parseFmt2 time_str with
      | some t => (t, none)
      | none =>
        match parseRfc3339 time_str with
        | some t => (t, none)
        | none =>
          match parseI64Str time_str with
          | some n => ((timestamp_opt n).getD now, none)
          | none => (now, some time_str)

/-! ### JSON values (model of `serde_json::Value` as parsed from text)

A number carries an `isInt` flag: `serde_json` represents an integer
literal that fits `u64`/`i64` exactly, and everything else as a float.
-/

inductive Json where
  | null : Json
  | bool (b : Bool) : Json
  | num (isInt : Bool) (mant exp10 : Int) : Json
  | str (s : String) : Json
  | arr (xs : List Json) : Json
  | obj (fields : List (String × Json)) : Json

/-- The double-quote character. -/
def dq : Char := Char.ofNat 34

/-- The backslash character. -/
def bsl : Char := Char.ofNat 92

/-- JSON insignificant whitespace (space, tab, newline, carriage
return), as skipped by `serde_json`. -/
def jws (cs : List Char) : List Char :=
  cs.dropWhile (fun c => c == ' ' || c == '\t' || c == '\n' || c == '\r')

/-- Value of a hexadecimal digit. -/
def hexVal (c : Char) : Option Nat :=
  if c.isDigit then some (c.toNat - 48)
  else if 'a' ≤ c ∧ c ≤ 'f' then some (c.toNat - 87)
  else if 'A' ≤ c ∧ c ≤ 'F' then some (c.toNat - 70)
  else none

/-- Four hexadecimal digits. -/
def hex4 (cs : List Char) : Option (Nat × List Char) :=
  match cs with
  | a :: b :: c :: d :: r => do
    let va ← hexVal a
    let vb ← hexVal b
    let vc ← hexVal c
    let vd ← hexVal d
    pure (((va * 16 + vb) * 16 + vc) * 16 + vd, r)
  | _ => none

/-- Body of a JSON string after the opening quote: escape handling as in
`serde_json`, including surrogate pairs; lone surrogates and unescaped
control characters are errors. -/
def parseStrChars : Nat → List Char → List Char → Option (List Char × List Char)
  | 0, _, _ => none
  | fuel + 1, acc, c :: r =>
    if c = dq then some (acc.reverse, r)
    else if c = bsl then
      match r with
      | e :: r2 =>
        if e = dq then parseStrChars fuel (dq :: acc) r2
        else if e = bsl then parseStrChars fuel (bsl :: acc) r2
        else if e = '/' then parseStrChars fuel ('/' :: acc) r2
        else if e = 'b' then parseStrChars fuel (Char.ofNat 8 :: acc) r2
        else if e = 'f' then parseStrChars fuel (Char.ofNat 12 :: acc) r2
        else if e = 'n' then parseStrChars fuel ('\n' :: acc) r2
        else if e = 'r' then parseStrChars fuel ('\r' :: acc) r2
        else if e = 't' then parseStrChars fuel ('\t' :: acc) r2
        else if e = 'u' then
          match hex4 r2 with
          | some (n, r3) =>
            if n < 0xD800 ∨ 0xDFFF < n then
              if n.isValidChar then parseStrChars fuel (Char.ofNat n :: acc) r3
              else none
            else if n ≤ 0xDBFF then
              match r3 with
              | e2 :: u2 :: r4 =>
                if e2 = bsl ∧ u2 = 'u' then
                  match hex4 r4 with
                  | some (n2, r5) =>
                    if 0xDC00 ≤ n2 ∧ n2 ≤ 0xDFFF then
                      let scalar := 0x10000 + (n - 0xD800) * 0x400 + (n2 - 0xDC00)
                      if scalar.isValidChar then
                        parseStrChars fuel (Char.ofNat scalar :: acc) r5
                      else none
                    else none
                  | none => none
                else none
              | _ => none
            else none
          | none => none
        else none
      | [] => none
    else if c.toNat < 0x20 then none
    else parseStrChars fuel (c :: acc) r
  | _, _, [] => none

/-- Value of `i64::MIN` as an integer. -/
def i64Min : Int := -(2 ^ 63)

/-- Value of `i64::MAX` as an integer. -/
def i64Max : Int := 2 ^ 63 - 1

/-- Value of `u64::MAX` as an integer. -/
def u64Max : Int := 2 ^ 64 - 1

/-- Parse a JSON number token (`serde_json` grammar: optional minus, an
integer part with no leading zeros, optional fraction and exponent).
Integer literals within the `u64`/`i64` ranges become integer numbers;
all others become floats, held exactly as `mant · 10 ^ exp10`. -/
def parseJNum (cs : List Char) : Option (Json × List Char) :=
  let (neg, cs1) : Bool × List Char :=
    match cs with
    | '-' :: r => (true, r)
    | r => (false, r)
  let ipart : Option (Nat × List Char) :=
    match cs1 with
    | '0' :: r =>
      match r with
      | c :: _ => if c.isDigit then none else some (0, r)
      | [] => some (0, [])
    | c :: _ =>
      if c.isDigit then
        let ds := cs1.takeWhile Char.isDigit
        some (ds.foldl (fun a c' => a * 10 + digitVal c') 0, cs1.dropWhile Char.isDigit)
      else none
    | [] => none
  match ipart with
  | none => none
  | some (iv, r1) =>
    let fpart : Option (Option (List Char) × List Char) :=
      match r1 with
      | '.' :: r2 =>
        let ds := r2.takeWhile Char.isDigit
        if ds.isEmpty then none
        else some (some ds, r2.dropWhile Char.isDigit)
      | _ => some (none, r1)
    match fpart with
    | none => none
    | some (fds, r3) =>
      let epart : Option (Option Int × List Char) :=
        match r3 with
        | c :: r4 =>
          if c = 'e' ∨ c = 'E' then
            let (esgn, r5) : Int × List Char :=
              match r4 with
              | '-' :: r6 => (-1, r6)
              | '+' :: r6 => (1, r6)
              | r6 => (1, r6)
            let ds := r5.takeWhile Char.isDigit
            if ds.isEmpty then none
            else some (some (esgn * (ds.foldl (fun a c' => a * 10 + digitVal c') 0 : Nat)),
                       r5.dropWhile Char.isDigit)
          else some (none, r3)
        | [] => some (none, [])
      match epart with
      | none => none
      | some (e?, rest) =>
        match fds, e? with
        | none, none =>
          if neg then
            if iv = 0 then some (.num false 0 0, rest)
            else if (iv : Int) ≤ 2 ^ 63 then some (.num true (-(iv : Int)) 0, rest)
            else some (.num false (-(iv : Int)) 0, rest)
          else
            if (iv : Int) ≤ u64Max then some (.num true (iv : Int) 0, rest)
            else some (.num false (iv : Int) 0, rest)
        | _, _ =>
          let fd := fds.getD []
          let mNat : Nat := fd.foldl (fun a c' => a * 10 + digitVal c') iv
          let m : Int := if neg then -(mNat : Int) else (mNat : Int)
          some (.num false m (e?.getD 0 - (fd.length : Int)), rest)

mutual

/-- Recursive-descent JSON value parser (model of `serde_json`'s
grammar), with explicit fuel. -/
def parseVal : Nat → List Char → Option (Json × List Char)
  | 0, _ => none
  | fuel + 1, cs0 =>
    let cs := jws cs0
    match cs with
    | 'n' :: 'u' :: 'l' :: 'l' :: r => some (.null, r)
    | 't' :: 'r' :: 'u' :: 'e' :: r => some (.bool true, r)
    | 'f' :: 'a' :: 'l' :: 's' :: 'e' :: r => some (.bool false, r)
    | '[' :: r =>
      match jws r with
      | ']' :: r2 => some (.arr [], r2)
      | r2 => (parseArrItems fuel r2).map (fun p => (.arr p.1, p.2))
    | c :: r =>
      if c = dq then
        (parseStrChars (r.length + 1) [] r).map (fun p => (.str (String.mk p.1), p.2))
      else if c = Char.ofNat 123 then
        match jws r with
        | c2 :: r2 =>
          if c2 = Char.ofNat 125 then some (.obj [], r2)
          else (parseObjItems fuel (c2 :: r2)).map (fun p => (.obj p.1, p.2))
        | [] => none
      else parseJNum cs
    | [] => none

/-- One-or-more comma-separated array elements, up to the closing
bracket. -/
def parseArrItems : Nat → List Char → Option (List Json × List Char)
  | 0, _ => none
  | fuel + 1, cs => do
    let (v, r) ← parseVal fuel cs
    match jws r with
    | ',' :: r2 => do
      let (xs, rest) ← parseArrItems fuel r2
      pure (v :: xs, rest)
    | ']' :: r2 => pure ([v], r2)
    | _ => none

/-- One-or-more comma-separated object members, up to the closing
brace. -/
def parseObjItems : Nat → List Char → Option (List (String × Json) × List Char)
  | 0, _ => none
  | fuel + 1, cs =>
    match jws cs with
    | c :: r =>
      if c = dq then do
        let (kcs, r2) ← parseStrChars (r.length + 1) [] r
        match jws r2 with
        | ':' :: r3 => do
          let (v, r4) ← parseVal fuel r3
          match jws r4 with
          | ',' :: r5 => do
            let (fs, rest) ← parseObjItems fuel r5
            pure ((String.mk kcs, v) :: fs, rest)
          | c2 :: r5 =>
            if c2 = Char.ofNat 125 then pure ([(String.mk kcs, v)], r5)
            else none
          | [] => none
        | _ => none
      else none
    | [] => none

end

/-- Syntactic stage of `serde_json::from_str`: parse one JSON value with
only whitespace allowed after it. -/
def jsonParse (s : String) : Option Json :=
  match parseVal (2 * s.toList.length + 8) s.toList with
  | some (j, rest) => if (jws rest).isEmpty then some j else none
  | none => none

/-! ### Structural decode into `RTL433Message` (model of the serde
derive on the struct at `main.rs:63-84`) -/

/-- The exact decimal value `mant · 10 ^ exp10` of a JSON float token
(the model of an `f64` field's value). -/
structure DecNum where
  mant : Int
  exp10 : Int
deriving DecidableEq

/-- The normalized record (`struct RTL433Message`).  `temperature_c` and
`battery_ok` are `f64` in the source; their numeric values are held as
exact decimals. -/
structure RTL433Message where
  time : Ts
  model : String
  id : Option Int
  channel : Option Int
  temperature_c : Option DecNum
  humidity : Option Int
  battery_ok : Option DecNum
  test : Option Bool
  mic : String
deriving DecidableEq

/-- The JSON keys the serde derive recognizes (`temperature_C` is the
renamed source key of `temperature_c`). -/
def knownKeys : List String :=
  ["time", "model", "id", "channel", "temperature_C", "humidity", "battery_ok", "test", "mic"]

/-- First value bound to a key in an object's member list. -/
def lookupField (k : String) : List (String × Json) → Option Json
  | [] => none
  | (k', v) :: fs => if k' = k then some v else lookupField k fs

/-- serde's `visit_map` errors on a duplicate occurrence of a known
field. -/
def dupKnown (fs : List (String × Json)) : Bool :=
  knownKeys.any (fun k => 2 ≤ fs.countP (fun kv => kv.1 == k))

/-- Model of `Option::<String>::deserialize`: `null` or a string; anything else
is a type error. -/
def decodeOptString : Json → Option (Option String)
  | .null => some none
  | .str s => some (some s)
  | _ => none

/-- Model of `String::deserialize`: a string only. -/
def decodeString : Json → Option String
  | .str s => some s
  | _ => none

/-- Model of `Option::<i64>::deserialize`: `null`, or an integer number within
the `i64` range. -/
def decodeOptI64 : Json → Option (Option Int)
  | .null => some none
  | .num isInt m _ =>
    if isInt ∧ i64Min ≤ m ∧ m ≤ i64Max then some (some m) else none
  | _ => none

/-- Model of `Option::<f64>::deserialize`: `null`, or any number. -/
def decodeOptF64 : Json → Option (Option DecNum)
  | .null => some none
  | .num _ m e => some (some ⟨m, e⟩)
  | _ => none

/-- The `time` field: absent yields `DateTime::<Utc>::default()` (the
Unix epoch) via `#[serde(default)]`; present, it is decoded as
`Option<String>` and passed through `deserialize_timestamp`. -/
def decTime (now : Ts) (fs : List (String × Json)) : Option (Ts × Option String) :=
  match lookupField "time" fs with
  | none => some (⟨0, 0⟩, none)
  | some v => (decodeOptString v).map (deserialize_timestamp now)

/-- The `model` field: absent yields `String::default()`. -/
def decModel (fs : List (String × Json)) : Option String :=
  match lookupField "model" fs with
  | none => some ""
  | some v => decodeString v

/-- The `id` field: absent yields `None`. -/
def decId (fs : List (String × Json)) : Option (Option Int) :=
  match lookupField "id" fs with
  | none => some none
  | some v => decodeOptI64 v

/-- The `channel` field: absent yields `None`. -/
def decChannel (fs : List (String × Json)) : Option (Option Int) :=
  match lookupField "channel" fs with
  | none => some none
  | some v => decodeOptI64 v

/-- The `temperature_c` field, read from the renamed key
`temperature_C`: absent yields `None`. -/
def decTemp (fs : List (String × Json)) : Option (Option DecNum) :=
  match lookupField "temperature_C" fs with
  | none => some none
  | some v => decodeOptF64 v

/-- The `humidity` field: absent yields `None`. -/
def decHum (fs : List (String × Json)) : Option (Option Int) :=
  match lookupField "humidity" fs with
  | none => some none
  | some v => decodeOptI64 v

/-- The `battery_ok` field: absent yields `None`. -/
def decBatt (fs : List (String × Json)) : Option (Option DecNum) :=
  match lookupField "battery_ok" fs with
  | none => some none
  | some v => decodeOptF64 v

/-- The `test` field: absent yields `None`; present, it is decoded as
`Option<String>` and passed through `deserialize_yes_no`. -/
def decTest (fs : List (String × Json)) : Option (Option Bool) :=
  match lookupField "test" fs with
  | none => some none
  | some v => (decodeOptString v).map deserialize_yes_no

/-- The `mic` field: absent yields `String::default()`. -/
def decMic (fs : List (String × Json)) : Option String :=
  match lookupField "mic" fs with
  | none => some ""
  | some v => decodeString v

/-- Structural stage of `serde_json::from_str::<RTL433Message>` on an
already-parsed JSON value.  Succeeds only on an object with no
duplicated known field and with every present known field well-typed;
the second component is the pending "Unknown timestamp format" warning,
if `deserialize_timestamp` emitted one. -/
def decodeMessage (now : Ts) (j : Json) : Option (RTL433Message × Option String) :=
  match j with
  | .obj fs =>
    if dupKnown fs then none
    else
      (decTime now fs).bind fun tw =>
      (decModel fs).bind fun mo =>
      (decId fs).bind fun i =>
      (decChannel fs).bind fun ch =>
      (decTemp fs).bind fun te =>
      (decHum fs).bind fun hu =>
      (decBatt fs).bind fun ba =>
      (decTest fs).bind fun tf =>
      (decMic fs).bind fun mi =>
      some (⟨tw.1, mo, i, ch, te, hu, ba, tf, mi⟩, tw.2)
  | _ => none

/-! ### Record shape and unknown fields -/

/-- An absent field is always acceptable; a present one must satisfy
the given type test. -/
def optOk (v? : Option Json) (p : Json → Bool) : Bool :=
  match v? with
  | none => true
  | some v => p v

/-- Values accepted by `Option::<String>::deserialize`. -/
def isNullOrStr : Json → Bool
  | .null => true
  | .str _ => true
  | _ => false

/-- Values accepted by `String::deserialize`. -/
def isStrVal : Json → Bool
  | .str _ => true
  | _ => false

/-- Values accepted by `Option::<i64>::deserialize`. -/
def isNullOrI64 : Json → Bool
  | .null => true
  | .num isInt m _ => isInt && decide (i64Min ≤ m) && decide (m ≤ i64Max)
  | _ => false

/-- Values accepted by `Option::<f64>::deserialize`. -/
def isNullOrNum : Json → Bool
  | .null => true
  | .num _ _ _ => true
  | _ => false

/-- A JSON value conforms to the `RTL433Message` shape: an object, no
duplicated known field, and every present known field of its schema
type. -/
def recordShaped : Json → Bool
  | .obj fs =>
    !dupKnown fs
    && optOk (lookupField "time" fs) isNullOrStr
    && optOk (lookupField "model" fs) isStrVal
    && optOk (lookupField "id" fs) isNullOrI64
    && optOk (lookupField "channel" fs) isNullOrI64
    && optOk (lookupField "temperature_C" fs) isNullOrNum
    && optOk (lookupField "humidity" fs) isNullOrI64
    && optOk (lookupField "battery_ok" fs) isNullOrNum
    && optOk (lookupField "test" fs) isNullOrStr
    && optOk (lookupField "mic" fs) isStrVal
  | _ => false

/-- Keep only the members whose key the schema knows. -/
def keepKnown (fs : List (String × Json)) : List (String × Json) :=
  fs.filter (fun kv => knownKeys.contains kv.1)

/-- Remove the unknown fields of a top-level object. -/
def stripUnknown : Json → Json
  | .obj fs => .obj (keepKnown fs)
  | j => j

/-! ### Reporter (model of the `println!` calls in `process_json_line`)
-/

/-- Left-pad a natural number with zeros to a given width. -/
def padNum (w n : Nat) : String :=
  let s := toString n
  if s.length < w then String.mk (List.replicate (w - s.length) '0') ++ s else s

/-- Year display `%Y` of `chrono`: zero-padded to four digits, a sign for
negative years and a `+` beyond four digits. -/
def yearStr (y : Int) : String :=
  if y < 0 then "-" ++ padNum 4 (-y).toNat
  else if 9999 < y then "+" ++ toString y.toNat
  else padNum 4 y.toNat

/-- The `Display` rendering of `DateTime<Utc>` (as printed by `{}` in the header
line): `"YYYY-MM-DD HH:MM:SS[.frac] UTC"`, the fraction shown only when
nonzero, at 3, 6 or 9 digits. -/
def tsDisplay (t : Ts) : String :=
  let days := t.secs.ediv 86400
  let sod := (t.secs.emod 86400).toNat
  let ymd := civilFromDays days
  let frac :=
    if t.nanos = 0 then ""
    else if t.nanos % 1000000 = 0 then "." ++ padNum 3 (t.nanos / 1000000)
    else if t.nanos % 1000 = 0 then "." ++ padNum 6 (t.nanos / 1000)
    else "." ++ padNum 9 t.nanos
  yearStr ymd.1 ++ "-" ++ padNum 2 ymd.2.1 ++ "-" ++ padNum 2 ymd.2.2 ++ " " ++
    padNum 2 (sod / 3600) ++ ":" ++ padNum 2 (sod % 3600 / 60) ++ ":" ++
    padNum 2 (sod % 60) ++ frac ++ " UTC"

/-- Fixed-precision display of an `f64` value `mant · 10 ^ exp10` (the format `{:.1}`): round
half-to-even to one decimal place, in tenths `n = round(value · 10)`. -/
def fmtF64p1 (d : DecNum) : String :=
  let k : Int := d.exp10 + 1
  let n : Int :=
    if 0 ≤ k then d.mant * 10 ^ k.toNat
    else
      let den : Int := 10 ^ (-k).toNat
      let fl : Int := d.mant.ediv den
      let rem : Int := d.mant - fl * den
      if den < 2 * rem then fl + 1
      else if 2 * rem < den then fl
      else if fl.emod 2 = 0 then fl else fl + 1
  let m := n.natAbs
  (if n < 0 then "-" else "") ++ toString (m / 10) ++ "." ++ toString (m % 10)

/-- The text block written to stdout for one decoded message
(`main.rs:140-157`): header, then conditional temperature, humidity and
test lines, then an empty separator line.  The temperature suffix is
the mojibake literal `"Â°C"` (U+00C2 U+00B0 then `C`) present in the
source. -/
def reportBlock (m : RTL433Message) : List String :=
  ["Received message from model: " ++ m.model ++ " at " ++ tsDisplay m.time]
  ++ (match m.temperature_c with
      | some t => ["  Temperature: " ++ fmtF64p1 t ++ "\u00C2\u00B0C"]
      | none => [])
  ++ (match m.humidity with
      | some h => ["  Humidity: " ++ toString h ++ "%"]
      | none => [])
  ++ (match m.test with
      | some b => ["  Is test: " ++ (if b then "true" else "false")]
      | none => [])
  ++ [""]

/-- One stderr line, in the order emitted. -/
inductive LogEvent where
  | parseError (raw : String) : LogEvent
  | unknownTimestamp (s : String) : LogEvent
deriving DecidableEq

/-- Keep only the JSON-parse-failure events, with their raw lines. -/
def parseErrorsOf (es : List LogEvent) : List String :=
  es.filterMap fun e =>
    match e with
    | .parseError raw => some raw
    | _ => none

/-- Function `process_json_line` (`main.rs:136-166`): stdout lines and stderr
events produced for one input line.  A line that fails JSON parsing or
structural decoding yields no stdout lines and one parse-error event
carrying the raw line. -/
def process_json_line (now : Ts) (line : String) : List String × List LogEvent :=
  match (jsonParse line).bind (decodeMessage now) with
  | some (m, w) =>
    (reportBlock m,
     match w with
     | some s => [.unknownTimestamp s]
     | none => [])
  | none => ([], [.parseError line])

/-- Function `parse_from_stdin` (`main.rs:122-134`) over an explicit, finite list
of successfully read lines: per-line processing in order, concatenating
stdout lines and stderr events. -/
def parse_from_stdin (now : Ts) : List String → List String × List LogEvent
  | [] => ([], [])
  | l :: rest =>
    let p := process_json_line now l
    let q := parse_from_stdin now rest
    (p.1 ++ q.1, p.2 ++ q.2)

/-! ### Helper lemmas -/

theorem string_append_ne_empty (a b : String) (ha : a ≠ "") : a ++ b ≠ "" := by
  intro h
  apply ha
  have hd : (a ++ b).data = [] := by rw [h]
  rw [String.data_append] at hd
  have : a.data = [] := (List.append_eq_nil.mp hd).1
  exact String.ext this

theorem count_sep_reportBlock (m : RTL433Message) : (reportBlock m).count "" = 1 := by
  have hheader : "Received message from model: " ++ m.model ++ " at " ++ tsDisplay m.time ≠ "" := by
    apply string_append_ne_empty
    apply string_append_ne_empty
    apply string_append_ne_empty
    decide
  have htemp : ∀ t, "  Temperature: " ++ fmtF64p1 t ++ "\u00C2\u00B0C" ≠ "" := by
    intro t
    apply string_append_ne_empty
    apply string_append_ne_empty
    decide
  have hhum : ∀ h : Int, "  Humidity: " ++ toString h ++ "%" ≠ "" := by
    intro h
    apply string_append_ne_empty
    apply string_append_ne_empty
    decide
  have htest : ∀ b : Bool, "  Is test: " ++ (if b then "true" else "false") ≠ "" := by
    intro b
    apply string_append_ne_empty
    decide
  unfold reportBlock
  rcases m.temperature_c with _ | t <;> rcases m.humidity with _ | h <;> rcases m.test with _ | b <;>
    simp [List.count_append, List.count_cons, List.count_nil, beq_iff_eq, hheader, htemp, hhum,
      htest]

theorem filter_length_split (p : α → Bool) (l : List α) :
    (l.filter p).length + (l.filter (fun a => !p a)).length = l.length := by
  induction l with
  | nil => rfl
  | cons a rest ih =>
    cases hp : p a <;> simp [List.filter_cons, hp, ← ih] <;> omega

theorem decodeMessage_obj_inv (now : Ts) (fs : List (String × Json)) (r : RTL433Message)
    (w : Option String) (h : decodeMessage now (.obj fs) = some (r, w)) :
    dupKnown fs = false
    ∧ decTime now fs = some (r.time, w)
    ∧ decModel fs = some r.model
    ∧ decId fs = some r.id
    ∧ decChannel fs = some r.channel
    ∧ decTemp fs = some r.temperature_c
    ∧ decHum fs = some r.humidity
    ∧ decBatt fs = some r.battery_ok
    ∧ decTest fs = some r.test
    ∧ decMic fs = some r.mic := by
  simp only [decodeMessage] at h
  cases hdup : dupKnown fs
  · rw [hdup] at h
    simp only [Bool.false_eq_true, if_false] at h
    rcases Option.bind_eq_some.mp h with ⟨tw, htw, h⟩
    rcases Option.bind_eq_some.mp h with ⟨mo, hmo, h⟩
    rcases Option.bind_eq_some.mp h with ⟨i, hi, h⟩
    rcases Option.bind_eq_some.mp h with ⟨ch, hch, h⟩
    rcases Option.bind_eq_some.mp h with ⟨te, hte, h⟩
    rcases Option.bind_eq_some.mp h with ⟨hu, hhu, h⟩
    rcases Option.bind_eq_some.mp h with ⟨ba, hba, h⟩
    rcases Option.bind_eq_some.mp h with ⟨tf, htf, h⟩
    rcases Option.bind_eq_some.mp h with ⟨mi, hmi, h⟩
    obtain ⟨hr, hw⟩ := Prod.mk.injEq .. ▸ Option.some.inj h
    subst hw
    subst hr
    exact ⟨rfl, by rwa [← Prod.mk.eta (p := tw)] at htw, hmo, hi, hch, hte, hhu, hba, htf, hmi⟩
  · rw [hdup] at h
    simp at h

theorem decodeMessage_obj_mk (now : Ts) (fs : List (String × Json))
    (tw : Ts × Option String) (mo : String) (i ch : Option Int) (te : Option DecNum)
    (hu : Option Int) (ba : Option DecNum) (tf : Option Bool) (mi : String)
    (hdup : dupKnown fs = false)
    (h1 : decTime now fs = some tw) (h2 : decModel fs = some mo)
    (h3 : decId fs = some i) (h4 : decChannel fs = some ch)
    (h5 : decTemp fs = some te) (h6 : decHum fs = some hu)
    (h7 : decBatt fs = some ba) (h8 : decTest fs = some tf)
    (h9 : decMic fs = some mi) :
    decodeMessage now (.obj fs) = some (⟨tw.1, mo, i, ch, te, hu, ba, tf, mi⟩, tw.2) := by
  simp [decodeMessage, hdup, h1, h2, h3, h4, h5, h6, h7, h8, h9]

theorem decodeOptString_isSome (v : Json) (h : isNullOrStr v = true) :
    (decodeOptString v).isSome := by
  cases v <;> simp_all [isNullOrStr, decodeOptString]

theorem decodeString_isSome (v : Json) (h : isStrVal v = true) :
    (decodeString v).isSome := by
  cases v <;> simp_all [isStrVal, decodeString]

theorem decodeOptI64_isSome (v : Json) (h : isNullOrI64 v = true) :
    (decodeOptI64 v).isSome := by
  cases v <;> simp_all [isNullOrI64, decodeOptI64]

theorem decodeOptF64_isSome (v : Json) (h : isNullOrNum v = true) :
    (decodeOptF64 v).isSome := by
  cases v <;> simp_all [isNullOrNum, decodeOptF64]

theorem decTime_isSome (now : Ts) (fs : List (String × Json))
    (h : optOk (lookupField "time" fs) isNullOrStr = true) : (decTime now fs).isSome := by
  unfold decTime
  cases hl : lookupField "time" fs with
  | none => rfl
  | some v =>
    rw [hl] at h
    simp only [optOk] at h
    simpa using decodeOptString_isSome v h

theorem decModel_isSome (fs : List (String × Json))
    (h : optOk (lookupField "model" fs) isStrVal = true) : (decModel fs).isSome := by
  unfold decModel
  cases hl : lookupField "model" fs with
  | none => rfl
  | some v =>
    rw [hl] at h
    simp only [optOk] at h
    exact decodeString_isSome v h

theorem decId_isSome (fs : List (String × Json))
    (h : optOk (lookupField "id" fs) isNullOrI64 = true) : (decId fs).isSome := by
  unfold decId
  cases hl : lookupField "id" fs with
  | none => rfl
  | some v =>
    rw [hl] at h
    simp only [optOk] at h
    exact decodeOptI64_isSome v h

theorem decChannel_isSome (fs : List (String × Json))
    (h : optOk (lookupField "channel" fs) isNullOrI64 = true) : (decChannel fs).isSome := by
  unfold decChannel
  cases hl : lookupField "channel" fs with
  | none => rfl
  | some v =>
    rw [hl] at h
    simp only [optOk] at h
    exact decodeOptI64_isSome v h

theorem decTemp_isSome (fs : List (String × Json))
    (h : optOk (lookupField "temperature_C" fs) isNullOrNum = true) : (decTemp fs).isSome := by
  unfold decTemp
  cases hl : lookupField "temperature_C" fs with
  | none => rfl
  | some v =>
    rw [hl] at h
    simp only [optOk] at h
    exact decodeOptF64_isSome v h

theorem decHum_isSome (fs : List (String × Json))
    (h : optOk (lookupField "humidity" fs) isNullOrI64 = true) : (decHum fs).isSome := by
  unfold decHum
  cases hl : lookupField "humidity" fs with
  | none => rfl
  | some v =>
    rw [hl] at h
    simp only [optOk] at h
    exact decodeOptI64_isSome v h

theorem decBatt_isSome (fs : List (String × Json))
    (h : optOk (lookupField "battery_ok" fs) isNullOrNum = true) : (decBatt fs).isSome := by
  unfold decBatt
  cases hl : lookupField "battery_ok" fs with
  | none => rfl
  | some v =>
    rw [hl] at h
    simp only [optOk] at h
    exact decodeOptF64_isSome v h

theorem decTest_isSome (fs : List (String × Json))
    (h : optOk (lookupField "test" fs) isNullOrStr = true) : (decTest fs).isSome := by
  unfold decTest
  cases hl : lookupField "test" fs with
  | none => rfl
  | some v =>
    rw [hl] at h
    simp only [optOk] at h
    simpa using decodeOptString_isSome v h

theorem decMic_isSome (fs : List (String × Json))
    (h : optOk (lookupField "mic" fs) isStrVal = true) : (decMic fs).isSome := by
  unfold decMic
  cases hl : lookupField "mic" fs with
  | none => rfl
  | some v =>
    rw [hl] at h
    simp only [optOk] at h
    exact decodeString_isSome v h

theorem decode_isSome_of_shaped (now : Ts) (j : Json) (h : recordShaped j = true) :
    (decodeMessage now j).isSome := by
  cases j with
  | obj fs =>
    simp only [recordShaped, Bool.and_eq_true, Bool.not_eq_true'] at h
    obtain ⟨⟨⟨⟨⟨⟨⟨⟨⟨hdup, h1⟩, h2⟩, h3⟩, h4⟩, h5⟩, h6⟩, h7⟩, h8⟩, h9⟩ := h
    obtain ⟨tw, htw⟩ := Option.isSome_iff_exists.mp (decTime_isSome now fs h1)
    obtain ⟨mo, hmo⟩ := Option.isSome_iff_exists.mp (decModel_isSome fs h2)
    obtain ⟨i, hi⟩ := Option.isSome_iff_exists.mp (decId_isSome fs h3)
    obtain ⟨ch, hch⟩ := Option.isSome_iff_exists.mp (decChannel_isSome fs h4)
    obtain ⟨te, hte⟩ := Option.isSome_iff_exists.mp (decTemp_isSome fs h5)
    obtain ⟨hu, hhu⟩ := Option.isSome_iff_exists.mp (decHum_isSome fs h6)
    obtain ⟨ba, hba⟩ := Option.isSome_iff_exists.mp (decBatt_isSome fs h7)
    obtain ⟨tf, htf⟩ := Option.isSome_iff_exists.mp (decTest_isSome fs h8)
    obtain ⟨mi, hmi⟩ := Option.isSome_iff_exists.mp (decMic_isSome fs h9)
    rw [decodeMessage_obj_mk now fs tw mo i ch te hu ba tf mi hdup htw hmo hi hch hte hhu hba
      htf hmi]
    rfl
  | null => simp [recordShaped] at h
  | bool b => simp [recordShaped] at h
  | num isInt m e => simp [recordShaped] at h
  | str s => simp [recordShaped] at h
  | arr xs => simp [recordShaped] at h

theorem keepKnown_cons_true (k' : String) (v : Json) (rest : List (String × Json))
    (hkc : knownKeys.contains k' = true) :
    keepKnown ((k', v) :: rest) = (k', v) :: keepKnown rest := by
  unfold keepKnown
  rw [List.filter_cons, if_pos hkc]

theorem keepKnown_cons_false (k' : String) (v : Json) (rest : List (String × Json))
    (hkc : knownKeys.contains k' = false) :
    keepKnown ((k', v) :: rest) = keepKnown rest := by
  unfold keepKnown
  rw [List.filter_cons, if_neg]
  rw [hkc]
  exact Bool.false_ne_true

theorem lookupField_keepKnown (k : String) (hk : knownKeys.contains k = true)
    (fs : List (String × Json)) : lookupField k (keepKnown fs) = lookupField k fs := by
  induction fs with
  | nil => rfl
  | cons kv rest ih =>
    obtain ⟨k', v⟩ := kv
    cases hkc : knownKeys.contains k' with
    | true =>
      rw [keepKnown_cons_true k' v rest hkc]
      show (if k' = k then some v else lookupField k (keepKnown rest)) = _
      rw [lookupField, ih]
    | false =>
      have hne : k' ≠ k := by
        intro he
        rw [he, hk] at hkc
        exact Bool.false_ne_true hkc.symm
      rw [keepKnown_cons_false k' v rest hkc, lookupField, if_neg hne, ih]

theorem countP_keepKnown (k : String) (hk : knownKeys.contains k = true)
    (fs : List (String × Json)) :
    (keepKnown fs).countP (fun kv => kv.1 == k) = fs.countP (fun kv => kv.1 == k) := by
  induction fs with
  | nil => rfl
  | cons kv rest ih =>
    obtain ⟨k', v⟩ := kv
    cases hkc : knownKeys.contains k' with
    | true =>
      rw [keepKnown_cons_true k' v rest hkc, List.countP_cons, List.countP_cons, ih]
    | false =>
      have hne : ((k', v).1 == k) = false := by
        rw [beq_eq_false_iff_ne]
        intro he
        rw [show k' = k from he, hk] at hkc
        exact Bool.false_ne_true hkc.symm
      rw [keepKnown_cons_false k' v rest hkc, List.countP_cons, hne, ih]
      simp

theorem dupKnown_keepKnown (fs : List (String × Json)) :
    dupKnown (keepKnown fs) = dupKnown fs := by
  unfold dupKnown
  simp only [knownKeys, List.any_cons, List.any_nil]
  rw [countP_keepKnown "time" (by decide), countP_keepKnown "model" (by decide),
    countP_keepKnown "id" (by decide), countP_keepKnown "channel" (by decide),
    countP_keepKnown "temperature_C" (by decide), countP_keepKnown "humidity" (by decide),
    countP_keepKnown "battery_ok" (by decide), countP_keepKnown "test" (by decide),
    countP_keepKnown "mic" (by decide)]

theorem decTime_keepKnown (now : Ts) (fs : List (String × Json)) :
    decTime now (keepKnown fs) = decTime now fs := by
  unfold decTime
  rw [lookupField_keepKnown "time" (by decide)]

theorem decModel_keepKnown (fs : List (String × Json)) :
    decModel (keepKnown fs) = decModel fs := by
  unfold decModel
  rw [lookupField_keepKnown "model" (by decide)]

theorem decId_keepKnown (fs : List (String × Json)) :
    decId (keepKnown fs) = decId fs := by
  unfold decId
  rw [lookupField_keepKnown "id" (by decide)]

theorem decChannel_keepKnown (fs : List (String × Json)) :
    decChannel (keepKnown fs) = decChannel fs := by
  unfold decChannel
  rw [lookupField_keepKnown "channel" (by decide)]

theorem decTemp_keepKnown (fs : List (String × Json)) :
    decTemp (keepKnown fs) = decTemp fs := by
  unfold decTemp
  rw [lookupField_keepKnown "temperature_C" (by decide)]

theorem decHum_keepKnown (fs : List (String × Json)) :
    decHum (keepKnown fs) = decHum fs := by
  unfold decHum
  rw [lookupField_keepKnown "humidity" (by decide)]

theorem decBatt_keepKnown (fs : List (String × Json)) :
    decBatt (keepKnown fs) = decBatt fs := by
  unfold decBatt
  rw [lookupField_keepKnown "battery_ok" (by decide)]

theorem decTest_keepKnown (fs : List (String × Json)) :
    decTest (keepKnown fs) = decTest fs := by
  unfold decTest
  rw [lookupField_keepKnown "test" (by decide)]

theorem decMic_keepKnown (fs : List (String × Json)) :
    decMic (keepKnown fs) = decMic fs := by
  unfold decMic
  rw [lookupField_keepKnown "mic" (by decide)]

theorem decode_none_of_decTime_none (now : Ts) (fs : List (String × Json))
    (h : decTime now fs = none) : decodeMessage now (.obj fs) = none := by
  simp only [decodeMessage]
  cases hdup : dupKnown fs
  · simp [h]
  · simp

theorem decode_none_of_decTest_none (now : Ts) (fs : List (String × Json))
    (h : decTest fs = none) : decodeMessage now (.obj fs) = none := by
  simp only [decodeMessage]
  cases hdup : dupKnown fs
  · simp only [Bool.false_eq_true, if_false]
    cases h1 : decTime now fs <;> simp only [Option.none_bind, Option.some_bind]
    cases h2 : decModel fs <;> simp only [Option.none_bind, Option.some_bind]
    cases h3 : decId fs <;> simp only [Option.none_bind, Option.some_bind]
    cases h4 : decChannel fs <;> simp only [Option.none_bind, Option.some_bind]
    cases h5 : decTemp fs <;> simp only [Option.none_bind, Option.some_bind]
    cases h6 : decHum fs <;> simp only [Option.none_bind, Option.some_bind]
    cases h7 : decBatt fs <;> simp only [Option.none_bind, Option.some_bind]
    rw [h]
    simp
  · simp

theorem parseErrorsOf_append (a b : List LogEvent) :
    parseErrorsOf (a ++ b) = parseErrorsOf a ++ parseErrorsOf b := by
  unfold parseErrorsOf
  exact List.filterMap_append ..

theorem count_process_fst (now : Ts) (l : String)
    (h : ((jsonParse l).bind (decodeMessage now)).isSome = true) :
    (process_json_line now l).1.count "" = 1 := by
  unfold process_json_line
  cases hd : (jsonParse l).bind (decodeMessage now) with
  | none => rw [hd] at h; simp at h
  | some mw =>
    obtain ⟨m, w⟩ := mw
    exact count_sep_reportBlock m

theorem parseErrors_process_snd_nil (now : Ts) (l : String)
    (h : ((jsonParse l).bind (decodeMessage now)).isSome = true) :
    parseErrorsOf (process_json_line now l).2 = [] := by
  unfold process_json_line
  cases hd : (jsonParse l).bind (decodeMessage now) with
  | none => rw [hd] at h; simp at h
  | some mw =>
    obtain ⟨m, w⟩ := mw
    cases w <;> rfl

/-! ### Claim theorems -/

/-- C1: for a `time` field present as a string, timestamp coercion tries
exactly four interpretations in order — (1) `"YYYY-MM-DD HH:MM:SS"` as UTC,
(2) the same pattern with fractional seconds as UTC, (3) RFC 3339 with
offset or `Z`, (4) a bare integer string as Unix epoch seconds UTC — and
returns the result of the first that parses; in particular
`"2023-04-15 14:32:56"` yields the instant 2023-04-15T14:32:56Z (epoch
second 1681569176), `"2023-04-15 14:32:56.123"` the same instant with
123 ms, `"2023-04-15T14:32:56Z"` the identical instant, and
`"1681569176"` the corresponding epoch instant. -/
theorem timestamp_coercion_four_formats (now : Ts) (s : String) :
    (∀ t, parseFmt1 s = some t → deserialize_timestamp now (some s) = (t, none))
    ∧ (parseFmt1 s = none → ∀ t, parseFmt2 s = some t →
        deserialize_timestamp now (some s) = (t, none))
    ∧ (parseFmt1 s = none → parseFmt2 s = none → ∀ t, parseRfc3339 s = some t →
        deserialize_timestamp now (some s) = (t, none))
    ∧ (parseFmt1 s = none → parseFmt2 s = none → parseRfc3339 s = none →
        ∀ n, parseI64Str s = some n → minTs ≤ n → n ≤ maxTs →
        deserialize_timestamp now (some s) = (⟨n, 0⟩, none))
    ∧ deserialize_timestamp now (some "2023-04-15 14:32:56") = (⟨1681569176, 0⟩, none)
    ∧ deserialize_timestamp now (some "2023-04-15 14:32:56.123") = (⟨1681569176, 123000000⟩, none)
    ∧ deserialize_timestamp now (some "2023-04-15T14:32:56Z") = (⟨1681569176, 0⟩, none)
    ∧ deserialize_timestamp now (some "1681569176") = (⟨1681569176, 0⟩, none) := by
  refine ⟨?_, ?_, ?_, ?_, ?_, ?_, ?_, ?_⟩
  · intro t h
    simp [deserialize_timestamp, h]
  · intro h1 t h
    simp [deserialize_timestamp, h1, h]
  · intro h1 h2 t h
    simp [deserialize_timestamp, h1, h2, h]
  · intro h1 h2 h3 n h hlo hhi
    simp [deserialize_timestamp, h1, h2, h3, h, timestamp_opt, hlo, hhi]
  · have h : parseFmt1 "2023-04-15 14:32:56" = some ⟨1681569176, 0⟩ := by decide
    simp [deserialize_timestamp, h]
  · have h1 : parseFmt1 "2023-04-15 14:32:56.123" = none := by decide
    have h2 : parseFmt2 "2023-04-15 14:32:56.123" = some ⟨1681569176, 123000000⟩ := by decide
    simp [deserialize_timestamp, h1, h2]
  · have h1 : parseFmt1 "2023-04-15T14:32:56Z" = none := by decide
    have h2 : parseFmt2 "2023-04-15T14:32:56Z" = none := by decide
    have h3 : parseRfc3339 "2023-04-15T14:32:56Z" = some ⟨1681569176, 0⟩ := by decide
    simp [deserialize_timestamp, h1, h2, h3]
  · have h1 : parseFmt1 "1681569176" = none := by decide
    have h2 : parseFmt2 "1681569176" = none := by decide
    have h3 : parseRfc3339 "1681569176" = none := by decide
    have h4 : parseI64Str "1681569176" = some 1681569176 := by decide
    have h5 : timestamp_opt 1681569176 = some ⟨1681569176, 0⟩ := by decide
    simp [deserialize_timestamp, h1, h2, h3, h4, h5]

/-- Witness for C1: the first-format clause applied at the concrete spec
example. -/
theorem timestamp_coercion_four_formats_witness :
    deserialize_timestamp ⟨0, 0⟩ (some "2023-04-15 14:32:56") = (⟨1681569176, 0⟩, none) :=
  (timestamp_coercion_four_formats ⟨0, 0⟩ "2023-04-15 14:32:56").1 ⟨1681569176, 0⟩ (by decide)

/-- Counterexample for C4: `"yEs"` is a case variant of the token `Yes`,
yet the coercion yields the field absent (`none`), not `true` — the match
is not case-insensitive. -/
theorem yes_no_case_variant_cex :
    deserialize_yes_no (some "yEs") = none ∧ deserialize_yes_no (some "yEs") ≠ some true := by
  decide

/-- C4 as amended: Yes/No coercion of the `test` field matches the exact
token lists `Yes`/`yes`/`YES`/`true`/`TRUE`/`True`/`1` → true and
`No`/`no`/`NO`/`false`/`FALSE`/`False`/`0` → false (not arbitrary case
variants); any other text, or absence of the field, yields the field
being absent — never an error. -/
theorem yes_no_token_match (s : String) :
    deserialize_yes_no none = none
    ∧ (yesTokens.contains s = true → deserialize_yes_no (some s) = some true)
    ∧ (yesTokens.contains s = false → noTokens.contains s = true →
        deserialize_yes_no (some s) = some false)
    ∧ (yesTokens.contains s = false → noTokens.contains s = false →
        deserialize_yes_no (some s) = none) := by
  refine ⟨rfl, ?_, ?_, ?_⟩
  · intro h
    simp only [deserialize_yes_no]
    rw [h]
    simp
  · intro h1 h2
    simp only [deserialize_yes_no]
    rw [h1, h2]
    simp
  · intro h1 h2
    simp only [deserialize_yes_no]
    rw [h1, h2]
    simp

/-- Witness for C4: the token `"TRUE"` maps to `true`. -/
theorem yes_no_token_match_witness : deserialize_yes_no (some "TRUE") = some true :=
  (yes_no_token_match "TRUE").2.1 (by decide)

/-- Counterexample for C6: with the `time` field absent (an empty JSON
object) the decoded record carries the Unix epoch — the `#[serde(default)]`
value of `DateTime<Utc>` — rather than the current wall-clock time
(`now = ⟨1, 0⟩` here), refuting the claim that absence falls back to the
current time. -/
theorem absent_time_epoch_cex :
    decodeMessage ⟨1, 0⟩ (Json.obj []) =
      some (⟨⟨0, 0⟩, "", none, none, none, none, none, none, ""⟩, none)
    ∧ (⟨0, 0⟩ : Ts) ≠ ⟨1, 0⟩ := by
  exact ⟨rfl, by decide⟩

/-- C6 as amended: the coercion falls back to the current wall-clock time
when the `time` field is present as JSON `null` or present as a string
that all four parse rules fail on (with a warning naming the string
exactly in the all-fail case); when the field is absent entirely, the
record instead takes the epoch default and no warning is emitted. -/
theorem timestamp_fallback_amended (now : Ts) (s : String) (fs : List (String × Json)) :
    deserialize_timestamp now none = (now, none)
    ∧ (parseFmt1 s = none → parseFmt2 s = none → parseRfc3339 s = none →
        parseI64Str s = none → deserialize_timestamp now (some s) = (now, some s))
    ∧ ((deserialize_timestamp now (some s)).2 ≠ none →
        deserialize_timestamp now (some s) = (now, some s)
        ∧ parseFmt1 s = none ∧ parseFmt2 s = none ∧ parseRfc3339 s = none
        ∧ parseI64Str s = none)
    ∧ (lookupField "time" fs = none → ∀ r w, decodeMessage now (.obj fs) = some (r, w) →
        r.time = ⟨0, 0⟩ ∧ w = none) := by
  refine ⟨rfl, ?_, ?_, ?_⟩
  · intro h1 h2 h3 h4
    simp [deserialize_timestamp, h1, h2, h3, h4]
  · intro hne
    cases h1 : parseFmt1 s with
    | some t => rw [deserialize_timestamp, h1] at hne; simp at hne
    | none =>
    cases h2 : parseFmt2 s with
    | some t => rw [deserialize_timestamp, h1, h2] at hne; simp at hne
    | none =>
    cases h3 : parseRfc3339 s with
    | some t => rw [deserialize_timestamp, h1, h2, h3] at hne; simp at hne
    | none =>
    cases h4 : parseI64Str s with
    | some n => rw [deserialize_timestamp, h1, h2, h3, h4] at hne; simp at hne
    | none =>
      refine ⟨?_, rfl, rfl, rfl, rfl⟩
      simp [deserialize_timestamp, h1, h2, h3, h4]
  · intro hl r w h
    obtain ⟨_, htw, _⟩ := decodeMessage_obj_inv now fs r w h
    rw [decTime, hl] at htw
    exact ⟨(congrArg Prod.fst (Option.some.inj htw)).symm, (congrArg Prod.snd
      (Option.some.inj htw)).symm⟩

/-- Witness for C6: the unparseable string `"not-a-date"` falls back to
`now` with a warning naming it. -/
theorem timestamp_fallback_amended_witness :
    deserialize_timestamp ⟨9, 0⟩ (some "not-a-date") = (⟨9, 0⟩, some "not-a-date") :=
  (timestamp_fallback_amended ⟨9, 0⟩ "not-a-date" []).2.1 (by decide) (by decide) (by decide)
    (by decide)

/-- C10: a `time` string that parses as an integer denoting an epoch
second outside the representable timestamp range makes the coercion
return the current wall-clock time without emitting any warning
(`timestamp_opt(..).single()` is `None` and `unwrap_or_else` silently
substitutes `Utc::now()`). -/
theorem epoch_out_of_range_now_no_warning (now : Ts) (s : String) (n : Int)
    (h1 : parseFmt1 s = none) (h2 : parseFmt2 s = none) (h3 : parseRfc3339 s = none)
    (h4 : parseI64Str s = some n) (h5 : n < minTs ∨ maxTs < n) :
    deserialize_timestamp now (some s) = (now, none) := by
  have hrange : ¬(minTs ≤ n ∧ n ≤ maxTs) := by omega
  simp [deserialize_timestamp, h1, h2, h3, h4, timestamp_opt, hrange]

/-- Witness for C10: `9000000000000000000` fits `i64` but lies far
beyond `chrono`'s maximum timestamp. -/
theorem epoch_out_of_range_now_no_warning_witness :
    deserialize_timestamp ⟨3, 5⟩ (some "9000000000000000000") = (⟨3, 5⟩, none) :=
  epoch_out_of_range_now_no_warning ⟨3, 5⟩ "9000000000000000000" 9000000000000000000
    (by decide) (by decide) (by decide) (by decide) (Or.inr (by decide))

/-- C2: every JSON value conforming to the Record shape (each present
field of its schema type) decodes successfully — normalization never
fails, even with every optional field absent — and at the line level a
shaped line produces a report block and no parse error. -/
theorem shape_decodes_total (now : Ts) (j : Json) (line : String) :
    (recordShaped j = true → (decodeMessage now j).isSome = true)
    ∧ (jsonParse line = some j → recordShaped j = true →
        parseErrorsOf (process_json_line now line).2 = []
        ∧ (process_json_line now line).1 ≠ []) := by
  constructor
  · exact fun h => decode_isSome_of_shaped now j h
  · intro hp hs
    obtain ⟨⟨m, w⟩, hmw⟩ := Option.isSome_iff_exists.mp (decode_isSome_of_shaped now j hs)
    cases w with
    | none =>
      have hpl : process_json_line now line = (reportBlock m, []) := by
        simp [process_json_line, hp, hmw]
      rw [hpl]
      exact ⟨rfl, by simp [reportBlock]⟩
    | some s =>
      have hpl : process_json_line now line =
          (reportBlock m, [LogEvent.unknownTimestamp s]) := by
        simp [process_json_line, hp, hmw]
      rw [hpl]
      exact ⟨rfl, by simp [reportBlock]⟩

/-- Witness for C2: the empty object — every optional field absent —
still decodes. -/
theorem shape_decodes_total_witness :
    (decodeMessage ⟨0, 0⟩ (Json.obj [])).isSome = true :=
  (shape_decodes_total ⟨0, 0⟩ (Json.obj []) "").1 (by decide)

/-- C5 (code bug): at the spec's own example line the temperature line is
rendered with the mojibake suffix `"Â°C"` (U+00C2 U+00B0 `C`) coming from
the corrupted literal in `main.rs:144`, not the claimed `"°C"`; the rest
of the block (header, humidity line, no test line, blank separator) is as
claimed. -/
theorem temperature_line_mojibake :
    process_json_line ⟨0, 0⟩
        "\x7b\"model\":\"Acurite-5n1\",\"temperature_C\":21.5,\"humidity\":47\x7d"
      = (["Received message from model: Acurite-5n1 at 1970-01-01 00:00:00 UTC",
          "  Temperature: 21.5\u00C2\u00B0C", "  Humidity: 47%", ""], [])
    ∧ "  Temperature: 21.5\u00C2\u00B0C" ≠ "  Temperature: 21.5\u00B0C" := by
  decide

/-- C7: a record decoded from an object missing `model` or `mic` holds
the empty string there, and every other optional field (`id`, `channel`,
`temperature_c`, `humidity`, `battery_ok`, `test`) is absent (`none`)
when missing from the input. -/
theorem absent_field_defaults (now : Ts) (fs : List (String × Json)) (r : RTL433Message)
    (w : Option String) (h : decodeMessage now (.obj fs) = some (r, w)) :
    (lookupField "model" fs = none → r.model = "")
    ∧ (lookupField "mic" fs = none → r.mic = "")
    ∧ (lookupField "id" fs = none → r.id = none)
    ∧ (lookupField "channel" fs = none → r.channel = none)
    ∧ (lookupField "temperature_C" fs = none → r.temperature_c = none)
    ∧ (lookupField "humidity" fs = none → r.humidity = none)
    ∧ (lookupField "battery_ok" fs = none → r.battery_ok = none)
    ∧ (lookupField "test" fs = none → r.test = none) := by
  obtain ⟨_, _, hmo, hid, hch, hte, hhu, hba, htf, hmi⟩ := decodeMessage_obj_inv now fs r w h
  refine ⟨?_, ?_, ?_, ?_, ?_, ?_, ?_, ?_⟩
  · intro hl
    rw [decModel, hl] at hmo
    exact (Option.some.inj hmo).symm
  · intro hl
    rw [decMic, hl] at hmi
    exact (Option.some.inj hmi).symm
  · intro hl
    rw [decId, hl] at hid
    exact (Option.some.inj hid).symm
  · intro hl
    rw [decChannel, hl] at hch
    exact (Option.some.inj hch).symm
  · intro hl
    rw [decTemp, hl] at hte
    exact (Option.some.inj hte).symm
  · intro hl
    rw [decHum, hl] at hhu
    exact (Option.some.inj hhu).symm
  · intro hl
    rw [decBatt, hl] at hba
    exact (Option.some.inj hba).symm
  · intro hl
    rw [decTest, hl] at htf
    exact (Option.some.inj htf).symm

/-- Witness for C7: the empty object decodes to the record with empty
`model`. -/
theorem absent_field_defaults_witness :
    (⟨⟨0, 0⟩, "", none, none, none, none, none, none, ""⟩ : RTL433Message).model = "" :=
  (absent_field_defaults ⟨0, 0⟩ [] ⟨⟨0, 0⟩, "", none, none, none, none, none, none, ""⟩ none
    rfl).1 rfl

/-- C8: fields beyond the Record schema are silently ignored — decoding
an object equals decoding the same object with its unknown fields
removed — and a shaped object (in particular one with extra fields)
decodes successfully. -/
theorem unknown_fields_ignored (now : Ts) (j : Json) :
    decodeMessage now (stripUnknown j) = decodeMessage now j
    ∧ (recordShaped j = true → (decodeMessage now j).isSome = true) := by
  constructor
  · cases j with
    | obj fs =>
      simp only [stripUnknown, decodeMessage]
      rw [dupKnown_keepKnown, decTime_keepKnown, decModel_keepKnown, decId_keepKnown,
        decChannel_keepKnown, decTemp_keepKnown, decHum_keepKnown, decBatt_keepKnown,
        decTest_keepKnown, decMic_keepKnown]
    | null => rfl
    | bool b => rfl
    | num isInt m e => rfl
    | str s => rfl
    | arr xs => rfl
  · exact decode_isSome_of_shaped now j

/-- Witness for C8: an object with an unknown field `extra` decodes, and
equally with the unknown field stripped. -/
theorem unknown_fields_ignored_witness :
    (decodeMessage ⟨0, 0⟩ (Json.obj [("model", Json.str "X"), ("extra", Json.null)])).isSome
      = true :=
  (unknown_fields_ignored ⟨0, 0⟩ (Json.obj [("model", Json.str "X"), ("extra", Json.null)])).2
    (by decide)

/-- C9: a `time` field present as a JSON number, or a `test` field
present as a JSON boolean, fails `Option::<String>::deserialize`, so the
whole line fails to decode and is reported as a parse error with no
record — the per-field fallback applies only to string-typed values. -/
theorem nonstring_time_test_rejected (now : Ts) (fs : List (String × Json)) (line : String)
    (flag : Bool) (m e : Int) (b : Bool) :
    (lookupField "time" fs = some (.num flag m e) → decodeMessage now (.obj fs) = none)
    ∧ (lookupField "test" fs = some (.bool b) → decodeMessage now (.obj fs) = none)
    ∧ (jsonParse line = some (.obj fs) → lookupField "time" fs = some (.num flag m e) →
        process_json_line now line = ([], [LogEvent.parseError line]))
    ∧ (jsonParse line = some (.obj fs) → lookupField "test" fs = some (.bool b) →
        process_json_line now line = ([], [LogEvent.parseError line])) := by
  have c1 : lookupField "time" fs = some (.num flag m e) →
      decodeMessage now (.obj fs) = none := by
    intro hl
    apply decode_none_of_decTime_none
    simp [decTime, hl, decodeOptString]
  have c2 : lookupField "test" fs = some (.bool b) →
      decodeMessage now (.obj fs) = none := by
    intro hl
    apply decode_none_of_decTest_none
    simp [decTest, hl, decodeOptString]
  refine ⟨c1, c2, ?_, ?_⟩
  · intro hp hl
    simp [process_json_line, hp, c1 hl]
  · intro hp hl
    simp [process_json_line, hp, c2 hl]

/-- Witness for C9: the line with a numeric `time` is rejected as a
parse error. -/
theorem nonstring_time_test_rejected_witness :
    process_json_line ⟨0, 0⟩ "\x7b\"time\":5\x7d"
      = ([], [LogEvent.parseError "\x7b\"time\":5\x7d"]) :=
  (nonstring_time_test_rejected ⟨0, 0⟩ [("time", Json.num true 5 0)] "\x7b\"time\":5\x7d"
    true 5 0 true).2.2.1 rfl rfl

/-- C3: a line that fails JSON parsing or structural decoding yields zero
stdout lines and one logged parse error carrying the raw line, and
processing continues: over any input list, the number of report blocks
(one separator line each) is the number of well-formed lines, the logged
parse errors are exactly the malformed lines in input order, and the two
counts partition the input length (N−M blocks, M errors). -/
theorem stdin_blocks_and_errors (now : Ts) (lines : List String) :
    (∀ l, ((jsonParse l).bind (decodeMessage now)).isSome = false →
        process_json_line now l = ([], [LogEvent.parseError l]))
    ∧ (parse_from_stdin now lines).1.count "" =
        (lines.filter (fun l => ((jsonParse l).bind (decodeMessage now)).isSome)).length
    ∧ parseErrorsOf (parse_from_stdin now lines).2 =
        lines.filter (fun l => !((jsonParse l).bind (decodeMessage now)).isSome)
    ∧ (lines.filter (fun l => ((jsonParse l).bind (decodeMessage now)).isSome)).length
        = lines.length
          - (lines.filter (fun l => !((jsonParse l).bind (decodeMessage now)).isSome)).length := by
  have hfail : ∀ l, ((jsonParse l).bind (decodeMessage now)).isSome = false →
      process_json_line now l = ([], [LogEvent.parseError l]) := by
    intro l h
    unfold process_json_line
    cases hd : (jsonParse l).bind (decodeMessage now) with
    | none => rfl
    | some mw => rw [hd] at h; simp at h
  refine ⟨hfail, ?_, ?_, ?_⟩
  · induction lines with
    | nil => rfl
    | cons l rest ih =>
      simp only [parse_from_stdin, List.filter_cons]
      cases hd : (jsonParse l).bind (decodeMessage now) with
      | some mw =>
        obtain ⟨m, w⟩ := mw
        simp only [process_json_line, hd, Option.isSome_some, if_true, List.length_cons]
        rw [List.count_append, count_sep_reportBlock m, ih]
        omega
      | none =>
        rw [hfail l (by rw [hd]; rfl)]
        simp only [hd, Option.isSome_none, Bool.false_eq_true, if_false]
        rw [List.nil_append, ih]
  · induction lines with
    | nil => rfl
    | cons l rest ih =>
      cases hb : ((jsonParse l).bind (decodeMessage now)).isSome with
      | true =>
        simp only [parse_from_stdin]
        rw [parseErrorsOf_append, parseErrors_process_snd_nil now l hb, ih, List.filter_cons, hb]
        rfl
      | false =>
        simp only [parse_from_stdin]
        rw [hfail l hb, parseErrorsOf_append, ih, List.filter_cons, hb]
        rfl
  · have := filter_length_split (fun l => ((jsonParse l).bind (decodeMessage now)).isSome) lines
    omega

/-- Witness for C3: the malformed line from the spec yields no stdout
lines and one parse error echoing the raw line. -/
theorem stdin_blocks_and_errors_witness :
    process_json_line ⟨0, 0⟩ "\x7bnot json" = ([], [LogEvent.parseError "\x7bnot json"]) :=
  (stdin_blocks_and_errors ⟨0, 0⟩ []).1 "\x7bnot json" (by decide)

end RTL433
